import Mathlib

/-!
Verification of the query/match/action/expectation engine of the `ipm_e2e`
GUI test-automation library (`src/ipm/e2e.py`), via a shallow embedding.

Accessible objects (`Atspi.Object`) are modelled as finite rose trees
carrying the data the engine reads through the accessibility adapter:
role name, name (possibly `None`), text content, direct properties
(`getattr`), zero-argument getter methods (`get_<name>`), the ordered
list of action names, and the ordered list of children.
Python values of type `Either[str]` (a value or an exception object used
as a value) are modelled as `Except AttrError String`; raised exceptions
are modelled as `Option`/explicit error sums at each call site.
-/

namespace IpmE2e

/-- Position of a node among its siblings: `NthOf(i, n)` from `e2e.py`. -/
structure NthOf where
  i : Nat
  n : Nat
deriving DecidableEq

/-- `TreePath = tuple[NthOf, ...]` from `e2e.py`. -/
abbrev TreePath := List NthOf

/-- `ROOT_TREE_PATH = (NthOf(0, 1),)` from `e2e.py`. -/
def ROOT_TREE_PATH : TreePath := [⟨0, 1⟩]

/-- Model of an `Atspi.Object` as seen through the adapter calls the engine
makes: `get_role_name`, `get_name` (may return `None`), `get_text(0,-1)`,
`getattr`/`hasattr` (finite association list `props`), `get_<name>` getter
methods (association list `getters`, keyed by the full method name),
`get_action_name(i)` for `i < get_n_actions()` (list `actions`), and
`get_child_at_index(i)` for `i < get_child_count()` (list `children`). -/
inductive AtspiObject : Type where
  | mk (role : String) (name : Option String) (text : String)
      (props : List (String × String)) (getters : List (String × String))
      (actions : List String) (children : List AtspiObject)

def AtspiObject.role : AtspiObject → String
  | .mk r _ _ _ _ _ _ => r

def AtspiObject.name : AtspiObject → Option String
  | .mk _ n _ _ _ _ _ => n

def AtspiObject.text : AtspiObject → String
  | .mk _ _ t _ _ _ _ => t

def AtspiObject.props : AtspiObject → List (String × String)
  | .mk _ _ _ p _ _ _ => p

def AtspiObject.getters : AtspiObject → List (String × String)
  | .mk _ _ _ _ g _ _ => g

def AtspiObject.actions : AtspiObject → List String
  | .mk _ _ _ _ _ a _ => a

/-- `obj_children(obj)` from `e2e.py`: the ordered list of children. -/
def obj_children : AtspiObject → List AtspiObject
  | .mk _ _ _ _ _ _ cs => cs

/-- `_pprint(obj)` from `e2e.py`: `f"{role}(\x27{name}\x27)"` with
`name = obj.get_name() or ""`. -/
def _pprint (obj : AtspiObject) : String :=
  obj.role ++ "(\x27" ++ (obj.name.getD "") ++ "\x27)"

/-- The `AttributeError(f"{_pprint(obj)} has no attribute {name}")` value
returned (not raised) by `obj_get_attr`; we carry its two components. -/
structure AttrError where
  objRepr : String
  attrName : String
deriving DecidableEq

/-- `obj_get_attr(obj, name)` from `e2e.py` (lines 150-183): three tiers
tried in order — reserved synonyms `role`/`name`/`text`, then a direct
property (`hasattr`/`getattr`), then a zero-argument getter `get_<name>`;
otherwise the `AttributeError` is returned as a value. -/
def obj_get_attr (obj : AtspiObject) (name : String) : Except AttrError String :=
  if name = "role" then .ok obj.role
  else if name = "name" then .ok (obj.name.getD "")
  else if name = "text" then .ok obj.text
  else match obj.props.lookup name with
    | some v => .ok v
    | none =>
      match obj.getters.lookup ("get_" ++ name) with
      | some v => .ok v
      | none => .error ⟨_pprint obj, name⟩

mutual

/-- `tree_walk(root, path)` from `e2e.py` (lines 338-367): yields
`(path, root)` first, then recursively walks each child, tagging the
`i`-th of `n` children with `NthOf(i, n)` appended to the parent path. -/
def tree_walk : AtspiObject → TreePath → List (TreePath × AtspiObject)
  | .mk r nm tx pr gt ac cs, path =>
    (path, .mk r nm tx pr gt ac cs) :: tree_walk_children path cs.length 0 cs

/-- The inlined `for i, child in enumerate(children)` loop of `tree_walk`:
walks the children `cs`, the next one carrying sibling index `i` out of
`n` siblings in total. -/
def tree_walk_children (path : TreePath) (n i : Nat) :
    List AtspiObject → List (TreePath × AtspiObject)
  | [] => []
  | c :: rest => tree_walk c (path ++ [⟨i, n⟩]) ++ tree_walk_children path n (i + 1) rest

end

mutual

/-- Reference definition for the walk, written from the spec sentence
"depth-first pre-order; the multiset of visited nodes equals the full
descendant closure of the node including itself": the pre-order listing of a
rose tree, independent of any path bookkeeping. -/
def preOrder : AtspiObject → List AtspiObject
  | .mk r nm tx pr gt ac cs => .mk r nm tx pr gt ac cs :: preOrderList cs

/-- Pre-order listing of a forest, children of `preOrder` in order. -/
def preOrderList : List AtspiObject → List AtspiObject
  | [] => []
  | c :: rest => preOrder c ++ preOrderList rest

end

/-- Reference definition: follow a relative path (the walk path without its
root marker) down the tree, checking at each level that the sibling
count `n` of the segment is the actual child count and its index selects the
child. Used to state that yielded paths really locate the yielded nodes. -/
def descend : AtspiObject → List NthOf → Option AtspiObject
  | t, [] => some t
  | t, seg :: rest =>
    if seg.n = (obj_children t).length then
      match (obj_children t)[seg.i]? with
      | some c => descend c rest
      | none => none
    else none

/-- The value side of a `MatchArgs` entry (`MatchPattern` in `e2e.py`):
a Python `int` (meaningful for `nth`), a `str` literal, a `bytes` literal,
a compiled `re.Pattern` (modelled by its `fullmatch`-success predicate),
a unary callable applied to the attribute value, or a binary callable
(meaningful for `when`). -/
inductive MatchValue : Type where
  | int (v : Int)
  | str (s : String)
  | bytes (b : List Nat)
  | regexp (fullmatch : String → Bool)
  | pred1 (f : Except AttrError String → Bool)
  | pred2 (f : AtspiObject → TreePath → Bool)

/-- Python `==` between an `obj_get_attr` result and a `str` literal:
an `AttributeError` instance never compares equal to a string. -/
def pyEqStr : Except AttrError String → String → Bool
  | .ok v, s => v == s
  | .error _, _ => false

/-- Python `==` between an `obj_get_attr` result and a `bytes` literal:
a `str` never compares equal to `bytes`, and neither does an
`AttributeError` instance, so this is constantly `false` here (attribute
values in this model are strings). -/
def pyEqBytes : Except AttrError String → List Nat → Bool
  | _, _ => false

/-- `_match(obj, path, name, value)` from `e2e.py` (lines 265-292).
`none` models a raised exception: the `TODO` placeholder for `path`
(a `NameError`), an `IndexError` from `path[-1]` on an empty path, or a
`TypeError` from a value of the wrong shape for the dispatched branch. -/
def _match (obj : AtspiObject) (path : TreePath) (name : String) (value : MatchValue) :
    Option Bool :=
  if name = "path" then none
  else if name = "nth" then
    match value with
    | .int v =>
      match path.getLast? with
      | some nth_of =>
        some (decide ((if 0 ≤ v then v else (nth_of.n : Int) + v) = (nth_of.i : Int)))
      | none => none
    | _ => none
  else if name = "when" then
    match value with
    | .pred2 f => some (f obj path)
    | _ => none
  else
    match value with
    | .str s => some (pyEqStr (obj_get_attr obj name) s)
    | .bytes b => some (pyEqBytes (obj_get_attr obj name) b)
    | .regexp fm =>
      match obj_get_attr obj name with
      | .error _ => some false
      | .ok s => some (fm s)
    | .pred1 f => some (f (obj_get_attr obj name))
    | .int _ => none
    | .pred2 _ => none

/-- The conjunction `all(_match(obj, path, name, value) for name, value in
kwargs.items())` from `_find_all_descendants` (`e2e.py` line 300), over the
items of the keyword dict in iteration order; `all` short-circuits on the
first false conjunct, so a later raising condition is not reached. -/
def matchesAll (obj : AtspiObject) (path : TreePath) :
    List (String × MatchValue) → Option Bool
  | [] => some true
  | (name, value) :: rest =>
    match _match obj path name value with
    | none => none
    | some false => some false
    | some true => matchesAll obj path rest

/-- The filtering generator of `_find_all_descendants` (`e2e.py` line 299),
consumed to a list; a raised exception while matching propagates. -/
def matchesFilter (kwargs : List (String × MatchValue)) :
    List (TreePath × AtspiObject) → Option (List AtspiObject)
  | [] => some []
  | (path, obj) :: rest =>
    match matchesAll obj path kwargs with
    | none => none
    | some b =>
      match matchesFilter kwargs rest with
      | none => none
      | some l => some (if b then obj :: l else l)

/-- `_find_all_descendants(root, kwargs)` from `e2e.py` (lines 295-301):
with no conditions, every walked node; otherwise the walked nodes that
match all conditions. -/
def _find_all_descendants (root : AtspiObject) (kwargs : List (String × MatchValue)) :
    Option (List AtspiObject) :=
  if kwargs.length = 0 then some ((tree_walk root ROOT_TREE_PATH).map Prod.snd)
  else matchesFilter kwargs (tree_walk root ROOT_TREE_PATH)

/-- Helper loop of `_get_action_idx` (`e2e.py` lines 139-143):
`for i in range(n): if get_action_name(i) == name: return i`, with `i`
the index of the head of the remaining action list. -/
def _get_action_idx_go (name : String) (i : Nat) : List String → Option Nat
  | [] => none
  | a :: rest => if a = name then some i else _get_action_idx_go name (i + 1) rest

/-- `_get_action_idx(obj, name)` from `e2e.py`: the first index whose
action name equals `name`, else `None`. -/
def _get_action_idx (obj : AtspiObject) (name : String) : Option Nat :=
  _get_action_idx_go name 0 obj.actions

/-- The fatal conditions of the Action dispatcher: `StopIteration` from
`next` on an exhausted iterator, `NotFoundError` from `_do_action`
(carrying the node display form, the requested action name and the
available names), and the `AssertionError` raised by `Action.on` for an
ambiguous target (carrying the action name and the candidate objects it
formats into the message). -/
inductive DispatchError : Type where
  | stopIteration
  | notFound (objRepr : String) (actionName : String) (available : List String)
  | ambiguous (actionName : String) (objs : List AtspiObject)

/-- `Action` from `e2e.py` (aliased `do`): holds the requested action name. -/
structure Action where
  action_name : String

/-- `Action._do_action(obj)` from `e2e.py` (lines 433-438): resolve the
action index on `obj`, raising `NotFoundError` when absent, else invoke
`obj.do_action(idx)`; the performed invocation is reported as the pair
`(obj, idx)`. -/
def Action._do_action (a : Action) (obj : AtspiObject) :
    Except DispatchError (AtspiObject × Nat) :=
  match _get_action_idx obj a.action_name with
  | none => .error (.notFound (_pprint obj) a.action_name obj.actions)
  | some idx => .ok (obj, idx)

/-- `Action.on_all(objs)` from `e2e.py` (lines 414-416): invoke on every
node in order; the result pairs the invocations actually performed with
the first raised error, if any. -/
def Action.on_all (a : Action) :
    List AtspiObject → List (AtspiObject × Nat) × Option DispatchError
  | [] => ([], none)
  | obj :: rest =>
    match Action._do_action a obj with
    | .error e => ([], some e)
    | .ok inv =>
      match Action.on_all a rest with
      | (invs, err) => (inv :: invs, err)

/-- `Action.on_first(objs)` from `e2e.py` (lines 418-420): `next(objs)`
(raising `StopIteration` on an exhausted candidate iterator), then
`_do_action` on that node only. -/
def Action.on_first (a : Action) (objs : List AtspiObject) :
    List (AtspiObject × Nat) × Option DispatchError :=
  match objs with
  | [] => ([], some .stopIteration)
  | obj :: _ =>
    match Action._do_action a obj with
    | .error e => ([], some e)
    | .ok inv => ([inv], none)

/-- `Action.on(objs)` from `e2e.py` (lines 422-428): take the first node
(raising `StopIteration` when there is none), raise `AssertionError` when
a second node exists — before any invocation — and only then `_do_action`
on the sole node. -/
def Action.on (a : Action) (objs : List AtspiObject) :
    List (AtspiObject × Nat) × Option DispatchError :=
  match objs with
  | [] => ([], some .stopIteration)
  | [obj] =>
    match Action._do_action a obj with
    | .error e => ([], some e)
    | .ok inv => ([inv], none)
  | _ :: _ :: _ => ([], some (.ambiguous a.action_name objs))

/-- `Expectation` from `e2e.py`: candidate nodes plus the quantifier
selector string `which_one`. -/
structure Expectation where
  objects : List AtspiObject
  which_one : String

/-- `Expectation._check(predicate)` from `e2e.py` (lines 456-468):
quantifier dispatch on `which_one`; `none` models the `RuntimeError`
raised for an unknown quantifier string. -/
def Expectation._check (e : Expectation) (predicate : AtspiObject → Bool) :
    Option Bool :=
  if e.which_one = "all" then some (e.objects.all predicate)
  else if e.which_one = "any" then some (e.objects.any predicate)
  else if e.which_one = "first" then
    some (match e.objects with
          | [] => false
          | obj :: _ => predicate obj)
  else if e.which_one = "one" then some (decide ((e.objects.filter predicate).length = 1))
  else none

/-- `expect(objects)` from `e2e.py`. -/
def expect (objects : List AtspiObject) : Expectation := ⟨objects, "all"⟩

/-- `expect_all(objects)` from `e2e.py`. -/
def expect_all (objects : List AtspiObject) : Expectation := ⟨objects, "all"⟩

/-- `expect_any(objects)` from `e2e.py`. -/
def expect_any (objects : List AtspiObject) : Expectation := ⟨objects, "any"⟩

/-- `expect_first(objects)` from `e2e.py`. -/
def expect_first (objects : List AtspiObject) : Expectation := ⟨objects, "first"⟩

/-- `expect_one(objects)` from `e2e.py`. -/
def expect_one (objects : List AtspiObject) : Expectation := ⟨objects, "one"⟩

/-- `SUT` from `e2e.py` (lines 512-524): the session named tuple returned
by `run`. `process` models the truthiness of the `subprocess.Popen`
handle (`run` always supplies a live one); `app` is the discovered
application node or `None` when discovery timed out. -/
structure SUT where
  process : Bool
  app : Option AtspiObject
  path : String

/-- `SUT.__enter__` from `e2e.py`: raises `RuntimeError` when the
application node is absent, else returns the session itself. -/
def SUT.enter (s : SUT) : Except String SUT :=
  match s.app with
  | none => .error ("the application " ++ s.path ++ " didn\x27t show up in desktop")
  | some _ => .ok s

/-- `SUT.__exit__` from `e2e.py`: `if self.process: self.process.kill()`.
Returns whether the subject process gets killed. -/
def SUT.exit (s : SUT) : Bool :=
  s.process

/-- Embedding of the Python `with` statement (PEP 343) specialized to a
`SUT` and a body that returns normally: `__enter__` is called first and,
only when it returns without raising, the body runs and `__exit__` runs
afterwards; when `__enter__` raises, the exception propagates and
`__exit__` is never called. The result pairs the outcome with whether the
subject process was killed. -/
def withSUT {α : Type} (s : SUT) (body : SUT → α) : Except String α × Bool :=
  match SUT.enter s with
  | .error e => (.error e, false)
  | .ok v => (.ok (body v), SUT.exit s)

/-- A concrete label node used by the witnesses. -/
def demoChild1 : AtspiObject := .mk "label" (some "l1") "hello" [] [] [] []

/-- A concrete push-button node with a `click` action, used by the
witnesses. -/
def demoChild2 : AtspiObject := .mk "push button" (some "b") "" [] [] ["click"] []

/-- A concrete two-child application node used by the witnesses. -/
def demoApp : AtspiObject :=
  .mk "application" (some "app") "" [] [] [] [demoChild1, demoChild2]

/-!
Helper lemmas about the tree walk, shared by the claim theorems.
-/

mutual

/-- Stripping paths from a walk gives the pre-order node listing. -/
theorem tree_walk_map_snd : (t : AtspiObject) → (path : TreePath) →
    (tree_walk t path).map Prod.snd = preOrder t
  | .mk r nm tx pr gt ac cs, path => by
    have h := tree_walk_children_map_snd path cs.length 0 cs
    simp [tree_walk, preOrder, h]

/-- Stripping paths from a children walk gives the forest listing. -/
theorem tree_walk_children_map_snd : (path : TreePath) → (n i : Nat) →
    (cs : List AtspiObject) →
    (tree_walk_children path n i cs).map Prod.snd = preOrderList cs
  | _, _, _, [] => by simp [tree_walk_children, preOrderList]
  | path, n, i, c :: rest => by
    have h1 := tree_walk_map_snd c (path ++ [⟨i, n⟩])
    have h2 := tree_walk_children_map_snd path n (i + 1) rest
    simp [tree_walk_children, preOrderList, h1, h2]

end

mutual

/-- Every pair yielded by a walk extends the starting path by a relative
path that correctly descends from the walked root to the yielded node. -/
theorem tree_walk_mem_descend : (t : AtspiObject) → (path0 : TreePath) →
    ∀ p x, (p, x) ∈ tree_walk t path0 →
    ∃ rel, p = path0 ++ rel ∧ descend t rel = some x
  | .mk r nm tx pr gt ac cs, path0 => by
    intro p x hmem
    rw [tree_walk] at hmem
    rcases List.mem_cons.mp hmem with heq | htail
    · refine ⟨[], ?_, ?_⟩
      · simpa using congrArg Prod.fst heq
      · simpa [descend] using (congrArg Prod.snd heq).symm
    · obtain ⟨k, rel, hk, hp, c, hc, hd⟩ :=
        tree_walk_children_mem_descend path0 cs.length 0 cs p x htail
      refine ⟨⟨k, cs.length⟩ :: rel, by simpa using hp, ?_⟩
      simp [descend, obj_children, hc, hd]

/-- Companion of `tree_walk_mem_descend` for the children loop: a yielded
pair comes from the `k`-th remaining child, tagged with sibling index
`i + k` out of `n`. -/
theorem tree_walk_children_mem_descend : (path0 : TreePath) → (n i : Nat) →
    (cs : List AtspiObject) → ∀ p x, (p, x) ∈ tree_walk_children path0 n i cs →
    ∃ k rel, k < cs.length ∧ p = path0 ++ (⟨i + k, n⟩ :: rel) ∧
      ∃ c, cs[k]? = some c ∧ descend c rel = some x
  | _, _, _, [] => by intro p x hmem; simp [tree_walk_children] at hmem
  | path0, n, i, c :: rest => by
    intro p x hmem
    rw [tree_walk_children] at hmem
    rcases List.mem_append.mp hmem with hleft | hright
    · obtain ⟨rel, hp, hd⟩ := tree_walk_mem_descend c (path0 ++ [⟨i, n⟩]) p x hleft
      exact ⟨0, rel, by simp, by simpa using hp, c, by simp, hd⟩
    · obtain ⟨k, rel, hk, hp, c2, hc2, hd⟩ :=
        tree_walk_children_mem_descend path0 n (i + 1) rest p x hright
      refine ⟨k + 1, rel, by simp; omega, ?_, c2, by simpa using hc2, hd⟩
      rw [hp]
      have harith : i + (k + 1) = i + 1 + k := by omega
      rw [harith]

end

/-- A walk starts by yielding its own root at the starting path. -/
theorem tree_walk_self_mem (t : AtspiObject) (path : TreePath) :
    (path, t) ∈ tree_walk t path := by
  cases t with
  | mk r nm tx pr gt ac cs =>
    rw [tree_walk]
    exact List.mem_cons_self _ _

/-- The children loop yields the `k`-th remaining child tagged with its
sibling position. -/
theorem tree_walk_children_child_mem :
    ∀ (cs : List AtspiObject) (path0 : TreePath) (n i0 k : Nat) (c : AtspiObject),
    cs[k]? = some c → (path0 ++ [⟨i0 + k, n⟩], c) ∈ tree_walk_children path0 n i0 cs
  | [], _, _, _, k, c => by intro h; simp at h
  | c0 :: rest, path0, n, i0, 0, c => by
    intro h
    simp only [List.getElem?_cons_zero, Option.some.injEq] at h
    subst h
    rw [tree_walk_children]
    exact List.mem_append_left _ (tree_walk_self_mem c0 (path0 ++ [⟨i0 + 0, n⟩]))
  | c0 :: rest, path0, n, i0, k + 1, c => by
    intro h
    simp only [List.getElem?_cons_succ] at h
    rw [tree_walk_children]
    refine List.mem_append_right _ ?_
    have harith : i0 + (k + 1) = i0 + 1 + k := by omega
    rw [harith]
    exact tree_walk_children_child_mem rest path0 n (i0 + 1) k c h

/-- Claim C6: for every finite acyclic tree, the walk started at
`ROOT_TREE_PATH` yields each node of the subtree exactly once in
depth-first pre-order (its node listing equals the pre-order listing),
the root is yielded first tagged `(0, 1)`, the `i`-th of `n` children is
tagged `(i, n)` appended to the parent path, and every yielded path
starts with the root marker and correctly descends to the yielded node
with the recorded sibling indices and counts. -/
theorem tree_walk_spec (t : AtspiObject) :
    ((tree_walk t ROOT_TREE_PATH).map Prod.snd = preOrder t)
    ∧ ((tree_walk t ROOT_TREE_PATH).head? = some (ROOT_TREE_PATH, t))
    ∧ (∀ i c, (obj_children t)[i]? = some c →
        (ROOT_TREE_PATH ++ [⟨i, (obj_children t).length⟩], c) ∈ tree_walk t ROOT_TREE_PATH)
    ∧ (∀ p x, (p, x) ∈ tree_walk t ROOT_TREE_PATH →
        p.head? = some ⟨0, 1⟩ ∧ descend t (p.drop 1) = some x) := by
  refine ⟨tree_walk_map_snd t ROOT_TREE_PATH, ?_, ?_, ?_⟩
  · cases t with
    | mk r nm tx pr gt ac cs => rw [tree_walk]; rfl
  · intro i c h
    cases t with
    | mk r nm tx pr gt ac cs =>
      rw [tree_walk]
      refine List.mem_cons_of_mem _ ?_
      have := tree_walk_children_child_mem cs ROOT_TREE_PATH cs.length 0 i c h
      simpa using this
  · intro p x h
    obtain ⟨rel, hp, hd⟩ := tree_walk_mem_descend t ROOT_TREE_PATH p x h
    subst hp
    exact ⟨rfl, by simpa [ROOT_TREE_PATH] using hd⟩

/-- Witness for `tree_walk_spec` at the concrete two-child `demoApp`:
the second child is yielded at path `[(0,1), (1,2)]`, whose tail descends
from `demoApp` to `demoChild2`. -/
theorem tree_walk_spec_witness :
    ([⟨0, 1⟩, ⟨1, 2⟩] : TreePath).head? = some ⟨0, 1⟩
    ∧ descend demoApp (([⟨0, 1⟩, ⟨1, 2⟩] : TreePath).drop 1) = some demoChild2 :=
  (tree_walk_spec demoApp).2.2.2 [⟨0, 1⟩, ⟨1, 2⟩] demoChild2
    (List.Mem.tail _ (List.Mem.tail _ (List.Mem.head _)))

/-- Claim C1: dispatch mode `on` invokes the action on the sole node when
the candidate sequence yields exactly one node (performing exactly that
invocation when the action resolves, and in any case touching no node
other than the sole one); when the sequence yields two or more nodes it
fails with the ambiguous-target `AssertionError` and performs no
invocation at all. -/
theorem action_on_unique_target_spec (a : Action) (objs : List AtspiObject) :
    (∀ x idx, objs = [x] → _get_action_idx x a.action_name = some idx →
      Action.on a objs = ([(x, idx)], none))
    ∧ (∀ x, objs = [x] → ∀ inv ∈ (Action.on a objs).1, inv.1 = x)
    ∧ (2 ≤ objs.length →
      Action.on a objs = ([], some (.ambiguous a.action_name objs))) := by
  refine ⟨?_, ?_, ?_⟩
  · intro x idx hobjs hidx
    subst hobjs
    simp [Action.on, Action._do_action, hidx]
  · intro x hobjs inv hinv
    subst hobjs
    rcases h2 : _get_action_idx x a.action_name with _ | idx
    · simp [Action.on, Action._do_action, h2] at hinv
    · simp [Action.on, Action._do_action, h2] at hinv
      rw [hinv]
  · intro hlen
    match objs with
    | [] => simp at hlen
    | [x] => simp at hlen
    | x :: y :: rest => rfl

/-- Witness for `action_on_unique_target_spec`: on the singleton
candidate list the `click` action is invoked on `demoChild2` at action
index 0; on a two-element list the dispatch fails ambiguous with no
invocation. -/
theorem action_on_unique_target_spec_witness :
    Action.on ⟨"click"⟩ [demoChild2] = ([(demoChild2, 0)], none)
    ∧ Action.on ⟨"click"⟩ [demoChild1, demoChild2]
      = ([], some (.ambiguous "click" [demoChild1, demoChild2])) :=
  ⟨(action_on_unique_target_spec ⟨"click"⟩ [demoChild2]).1 demoChild2 0 rfl rfl,
   (action_on_unique_target_spec ⟨"click"⟩ [demoChild1, demoChild2]).2.2 (by decide)⟩

/-- Claim C4: dispatch mode `on_first` invokes the action on the first
node of the sequence and on no other node; on the empty sequence it
propagates the underlying `StopIteration` of `next`. -/
theorem action_on_first_spec (a : Action) (objs : List AtspiObject) :
    (objs = [] → Action.on_first a objs = ([], some .stopIteration))
    ∧ (∀ x rest idx, objs = x :: rest → _get_action_idx x a.action_name = some idx →
      Action.on_first a objs = ([(x, idx)], none))
    ∧ (∀ x rest, objs = x :: rest → ∀ inv ∈ (Action.on_first a objs).1, inv.1 = x) := by
  refine ⟨?_, ?_, ?_⟩
  · intro hobjs
    subst hobjs
    rfl
  · intro x rest idx hobjs hidx
    subst hobjs
    simp [Action.on_first, Action._do_action, hidx]
  · intro x rest hobjs inv hinv
    subst hobjs
    rcases h2 : _get_action_idx x a.action_name with _ | idx
    · simp [Action.on_first, Action._do_action, h2] at hinv
    · simp [Action.on_first, Action._do_action, h2] at hinv
      rw [hinv]

/-- Witness for `action_on_first_spec`: the `click` action runs on the
head `demoChild2` only, and the empty sequence propagates
`StopIteration`. -/
theorem action_on_first_spec_witness :
    Action.on_first ⟨"click"⟩ [demoChild2, demoChild1] = ([(demoChild2, 0)], none)
    ∧ Action.on_first ⟨"click"⟩ [] = ([], some .stopIteration) :=
  ⟨(action_on_first_spec ⟨"click"⟩ [demoChild2, demoChild1]).2.1
      demoChild2 [demoChild1] 0 rfl rfl,
   (action_on_first_spec ⟨"click"⟩ []).1 rfl⟩

/-- Claim C3: the `one` quantifier check is true iff the predicate holds
for exactly one candidate; it is false when zero candidates satisfy the
predicate and false when two or more do. -/
theorem expect_one_check_spec (objects : List AtspiObject)
    (predicate : AtspiObject → Bool) :
    (Expectation._check (expect_one objects) predicate = some true ↔
      objects.countP predicate = 1)
    ∧ (objects.countP predicate = 0 →
      Expectation._check (expect_one objects) predicate = some false)
    ∧ (2 ≤ objects.countP predicate →
      Expectation._check (expect_one objects) predicate = some false) := by
  have hfc : (objects.filter predicate).length = objects.countP predicate :=
    (List.countP_eq_length_filter predicate objects).symm
  have hch : Expectation._check (expect_one objects) predicate
      = some (decide ((objects.filter predicate).length = 1)) := rfl
  rw [hch, hfc]
  refine ⟨?_, ?_, ?_⟩
  · constructor
    · intro h
      simpa using congrArg (fun o => o.getD false) h
    · intro h
      simp [h]
  · intro h
    simp [h]
  · intro h
    have : objects.countP predicate ≠ 1 := by omega
    simp [this]

/-- Witness for `expect_one_check_spec`: with two satisfying candidates
the `one` quantifier is false. -/
theorem expect_one_check_spec_witness :
    Expectation._check (expect_one [demoChild1, demoChild2]) (fun _ => true)
      = some false :=
  (expect_one_check_spec [demoChild1, demoChild2] (fun _ => true)).2.2 (by decide)

/-- Claim C7: on the empty candidate sequence the `all` quantifier check
is vacuously true, the `any` check is false and the `first` check is
false. -/
theorem check_empty_sequence_spec (predicate : AtspiObject → Bool) :
    Expectation._check (expect_all []) predicate = some true
    ∧ Expectation._check (expect_any []) predicate = some false
    ∧ Expectation._check (expect_first []) predicate = some false :=
  ⟨rfl, rfl, rfl⟩

/-- Claim C5: matching a node against the concatenation of two condition
lists is the conjunction of matching it against each (whenever both
evaluate without raising); the empty condition list matches every node,
and `_find_all_descendants` with no conditions returns every walked
node. -/
theorem match_conditions_and_composition (obj : AtspiObject) (path : TreePath)
    (conds1 conds2 : List (String × MatchValue)) (b1 b2 : Bool) :
    matchesAll obj path [] = some true
    ∧ _find_all_descendants obj [] = some ((tree_walk obj ROOT_TREE_PATH).map Prod.snd)
    ∧ (matchesAll obj path conds1 = some b1 → matchesAll obj path conds2 = some b2 →
      matchesAll obj path (conds1 ++ conds2) = some (b1 && b2)) := by
  refine ⟨rfl, rfl, ?_⟩
  induction conds1 generalizing b1 with
  | nil =>
    intro h1 h2
    simp only [matchesAll, Option.some.injEq] at h1
    subst h1
    simpa using h2
  | cons hd rest ih =>
    intro h1 h2
    obtain ⟨nm, v⟩ := hd
    simp only [matchesAll, List.cons_append] at h1 ⊢
    rcases hm : _match obj path nm v with _ | b
    · rw [hm] at h1
      exact absurd h1 (by simp)
    · rw [hm] at h1
      cases b
      · simp only [Option.some.injEq] at h1
        subst h1
        rfl
      · exact ih b1 h1 h2

/-- Witness for `match_conditions_and_composition`: a role condition and
a name condition both hold on `demoChild1`, so their concatenation
holds. -/
theorem match_conditions_and_composition_witness :
    matchesAll demoChild1 ROOT_TREE_PATH
      ([("role", .str "label")] ++ [("name", .str "l1")]) = some (true && true) :=
  (match_conditions_and_composition demoChild1 ROOT_TREE_PATH
    [("role", .str "label")] [("name", .str "l1")] true true).2.2 rfl rfl

/-- Claim C8: the attribute accessor tries exactly three tiers in order —
the reserved synonyms `role`, `name` (with `None` coerced to the empty
string) and `text`; then a direct property of that name; then a
zero-argument getter `get_<name>` — and when none applies it returns
(never raises, being a total function into `Except`) the typed
`AttributeError` value carrying the node display form and the missing
attribute name. -/
theorem obj_get_attr_three_tiers_spec (obj : AtspiObject) (name : String) :
    obj_get_attr obj "role" = .ok obj.role
    ∧ obj_get_attr obj "name" = .ok (obj.name.getD "")
    ∧ obj_get_attr obj "text" = .ok obj.text
    ∧ (name ≠ "role" → name ≠ "name" → name ≠ "text" →
      (∀ v, obj.props.lookup name = some v → obj_get_attr obj name = .ok v)
      ∧ (obj.props.lookup name = none →
        (∀ v, obj.getters.lookup ("get_" ++ name) = some v →
          obj_get_attr obj name = .ok v)
        ∧ (obj.getters.lookup ("get_" ++ name) = none →
          obj_get_attr obj name = .error ⟨_pprint obj, name⟩))) := by
  refine ⟨rfl, rfl, rfl, ?_⟩
  intro h1 h2 h3
  refine ⟨?_, ?_⟩
  · intro v hv
    simp [obj_get_attr, h1, h2, h3, hv]
  · intro hnone
    refine ⟨?_, ?_⟩
    · intro v hv
      simp [obj_get_attr, h1, h2, h3, hnone, hv]
    · intro hgnone
      simp [obj_get_attr, h1, h2, h3, hnone, hgnone]

/-- Witness for `obj_get_attr_three_tiers_spec`: on `demoChild1`, which
has no property and no getter named `zzz`, the accessor returns the
typed failure value. -/
theorem obj_get_attr_three_tiers_spec_witness :
    obj_get_attr demoChild1 "zzz" = .error ⟨_pprint demoChild1, "zzz"⟩ :=
  (((obj_get_attr_three_tiers_spec demoChild1 "zzz").2.2.2
    (by decide) (by decide) (by decide)).2 rfl).2 rfl

/-- Claim C9: for a node whose last path segment has sibling count
`n ≥ 1`, the `nth` condition with value `-1` evaluates exactly as the
`nth` condition with value `n - 1`: a negative index is resolved to
`siblingCount + value` before comparison with the sibling index. -/
theorem nth_negative_index_spec (obj : AtspiObject) (path : TreePath) (seg : NthOf)
    (hlast : path.getLast? = some seg) (hn : 1 ≤ seg.n) :
    _match obj path "nth" (.int (-1))
      = _match obj path "nth" (.int ((seg.n : Int) - 1)) := by
  have h1 : _match obj path "nth" (.int (-1))
      = (match path.getLast? with
         | some nth_of =>
           some (decide (((nth_of.n : Int) + (-1)) = (nth_of.i : Int)))
         | none => none) := rfl
  have h2 : _match obj path "nth" (.int ((seg.n : Int) - 1))
      = (match path.getLast? with
         | some nth_of =>
           some (decide ((if 0 ≤ (seg.n : Int) - 1 then (seg.n : Int) - 1
                          else (nth_of.n : Int) + ((seg.n : Int) - 1))
             = (nth_of.i : Int)))
         | none => none) := rfl
  rw [h1, h2, hlast]
  show some (decide (((seg.n : Int) + (-1)) = (seg.i : Int)))
      = some (decide ((if 0 ≤ (seg.n : Int) - 1 then (seg.n : Int) - 1
                       else (seg.n : Int) + ((seg.n : Int) - 1)) = (seg.i : Int)))
  have hpos : 0 ≤ (seg.n : Int) - 1 := by omega
  rw [if_pos hpos]
  have harith : (seg.n : Int) + (-1) = (seg.n : Int) - 1 := by ring
  rw [harith]

/-- Witness for `nth_negative_index_spec` at the concrete path
`[(0,1), (1,2)]`: `nth = -1` and `nth = 1` evaluate the same. -/
theorem nth_negative_index_spec_witness :
    _match demoChild1 [⟨0, 1⟩, ⟨1, 2⟩] "nth" (.int (-1))
      = _match demoChild1 [⟨0, 1⟩, ⟨1, 2⟩] "nth"
          (.int (((⟨1, 2⟩ : NthOf).n : Int) - 1)) :=
  nth_negative_index_spec demoChild1 [⟨0, 1⟩, ⟨1, 2⟩] ⟨1, 2⟩ rfl (by decide)

/-- Claim C10: an attribute condition whose value is a literal string or
byte string evaluates to false — rather than raising — when the
attribute lookup yields the typed failure value, because that failure
value never compares equal to the literal. -/
theorem literal_condition_missing_attribute_spec (obj : AtspiObject)
    (path : TreePath) (name : String) (s : String) (b : List Nat)
    (err : AttrError)
    (hpath : name ≠ "path") (hnth : name ≠ "nth") (hwhen : name ≠ "when")
    (herr : obj_get_attr obj name = .error err) :
    _match obj path name (.str s) = some false
    ∧ _match obj path name (.bytes b) = some false := by
  constructor <;> simp [_match, hpath, hnth, hwhen, herr, pyEqStr, pyEqBytes]

/-- Witness for `literal_condition_missing_attribute_spec`: `demoChild1`
has no attribute `zzz`, so both literal conditions are false. -/
theorem literal_condition_missing_attribute_spec_witness :
    _match demoChild1 ROOT_TREE_PATH "zzz" (.str "x") = some false
    ∧ _match demoChild1 ROOT_TREE_PATH "zzz" (.bytes [104, 105]) = some false :=
  literal_condition_missing_attribute_spec demoChild1 ROOT_TREE_PATH "zzz" "x"
    [104, 105] ⟨_pprint demoChild1, "zzz"⟩ (by decide) (by decide) (by decide) rfl

/-- Claim C2, settled against the code as written: entering a `SUT` whose
application node is absent does raise before any body code runs, but —
contrary to the claim — the spawned subject process is NOT terminated on
this exit path, because the Python `with` statement never calls
`__exit__` when `__enter__` raises. Evaluated at the failing input: a
session with a live process, an absent application node and path
`./contador.py`. -/
theorem sut_failed_entry_process_not_killed :
    (withSUT ⟨true, none, "./contador.py"⟩ id).1
      = .error ("the application ./contador.py didn\x27t show up in desktop")
    ∧ (withSUT ⟨true, none, "./contador.py"⟩ id).2 = false :=
  ⟨rfl, rfl⟩

end IpmE2e
